import Mathlib

/-!
Shallow embedding of the tooltip-aware chart drawing core of the plotters
repository (src/plotters/src/chart/context/cartesian2d/mod.rs).

The drawing area's backend interaction is modelled by an explicit state
(`DAState`): a stack of the currently open semantic contexts, a trace of the
backend operations issued so far, and a counter of issued operations.  A
backend is modelled by a success oracle `ok : Nat → Bool` telling whether the
k-th backend operation succeeds; a failing operation makes the call return
`Except.error` carrying the state at the failure, mirroring Rust's `?`.
-/

/-- Interpolation data attached to a `DataLine` context (from the
`plotters_backend` crate): currently only `Discrete`, an ordered list of
(pixel offset, label) pairs, one per vertex. -/
inductive Interpolation where
  | Discrete (points : List (Int × String))
  deriving DecidableEq, Repr

/-- Semantic context variants pushed by the chart core
(`plotters_backend::ElementContext`).  Backend colors are abstracted to a
`Nat` (the resolved backend color value). -/
inductive ElementContext where
  | DataSeries (id : Nat) (color : Nat) (label : String)
  | DataPoint (coord : Int × Int) (x_label : String) (y_label : String) (series_id : Nat)
  | DataLine (x_interpolation : Interpolation) (y_interpolation : Interpolation)
      (series_id : Nat)
  deriving DecidableEq, Repr

/-- Backend operations observable from `draw_series_with_tooltips`: opening a
context, closing a context, and rendering an element (recorded with the
element's guest-space point list). -/
inductive Event (XT YT : Type) where
  | beginCtx (ctx : ElementContext)
  | endCtx
  | draw (points : List (XT × YT))
  deriving DecidableEq, Repr

/-- State of the drawing area as seen by the chart core: the stack of open
semantic contexts, the trace of backend operations issued so far, and the
index of the next backend operation. -/
structure DAState (XT YT : Type) where
  ctxStack : List ElementContext
  trace : List (Event XT YT)
  opIdx : Nat
  deriving DecidableEq, Repr

variable {XT YT : Type}

/-- Modelled from the spec: `DrawingArea::begin_context` (not under src/)
pushes the context onto the area's context stack and forwards a
"context opened" notification to the backend sink; a backend failure is
returned to the caller. -/
def begin_context (ok : Nat → Bool) (c : ElementContext) (s : DAState XT YT) :
    Except (DAState XT YT) (DAState XT YT) :=
  let s' : DAState XT YT :=
    { ctxStack := c :: s.ctxStack, trace := s.trace ++ [.beginCtx c], opIdx := s.opIdx + 1 }
  if ok s.opIdx then .ok s' else .error s'

/-- Modelled from the spec: `DrawingArea::end_context` (not under src/) pops
the most recently pushed context and notifies the backend; calling it on an
empty stack is an "unbalanced context" contract violation. -/
def end_context (ok : Nat → Bool) (s : DAState XT YT) :
    Except (DAState XT YT) (DAState XT YT) :=
  match s.ctxStack with
  | [] => .error s
  | _ :: rest =>
    let s' : DAState XT YT :=
      { ctxStack := rest, trace := s.trace ++ [.endCtx], opIdx := s.opIdx + 1 }
    if ok s.opIdx then .ok s' else .error s'

/-- Modelled from the spec: `DrawingArea::draw` (not under src/) renders an
element, forwarding primitive draw commands to the backend sink; a backend
failure propagates to the caller without touching the context stack. -/
def draw_op (ok : Nat → Bool) (elem : List (XT × YT)) (s : DAState XT YT) :
    Except (DAState XT YT) (DAState XT YT) :=
  let s' : DAState XT YT :=
    { s with trace := s.trace ++ [.draw elem], opIdx := s.opIdx + 1 }
  if ok s.opIdx then .ok s' else .error s'

/-- Coordinate/formatting capabilities of the chart context used by
`draw_series_with_tooltips`: `drawing_area.map_coordinate`, `X::format_ext`
over the x spec and `Y::format_ext` over the y spec. -/
structure ChartSpec (XT YT : Type) where
  mapCoord : XT × YT → Int × Int
  format_ext_x : XT → String
  format_ext_y : YT → String

/-- Per-point computation of `draw_series_with_tooltips` (mod.rs lines
97-107): for each guest point, the mapped backend coordinate and the two
formatted labels, in the order of the element's point sequence. -/
def mappedPoints (cs : ChartSpec XT YT) (elem : List (XT × YT)) :
    List ((Int × Int) × String × String) :=
  elem.map fun pt => (cs.mapCoord pt, cs.format_ext_x pt.1, cs.format_ext_y pt.2)

/-- Loop body of `draw_series_with_tooltips` for one element (mod.rs lines
93-141): classify the element by its number of guest points, open the
matching nested context (none for zero points, `DataPoint` for one,
`DataLine` with two `Discrete` interpolations for two or more), draw the
element, and close the nested context when one was opened. -/
def processElement (ok : Nat → Bool) (cs : ChartSpec XT YT) (series_id : Nat)
    (elem : List (XT × YT)) (s : DAState XT YT) :
    Except (DAState XT YT) (DAState XT YT) :=
  let mapped := mappedPoints cs elem
  let step1 : Except (DAState XT YT) (Bool × DAState XT YT) :=
    if mapped.length ≤ 1 then
      match mapped with
      | [] => .ok (false, s)
      | m :: _ =>
        match begin_context ok (.DataPoint m.1 m.2.1 m.2.2 series_id) s with
        | .ok s1 => .ok (true, s1)
        | .error s1 => .error s1
    else
      let x_points := mapped.map fun m => (m.1.1, m.2.1)
      let y_points := mapped.map fun m => (m.1.2, m.2.2)
      match begin_context ok
          (.DataLine (.Discrete x_points) (.Discrete y_points) series_id) s with
      | .ok s1 => .ok (true, s1)
      | .error s1 => .error s1
  match step1 with
  | .error s1 => .error s1
  | .ok (opened, s1) =>
    match draw_op ok elem s1 with
    | .error s2 => .error s2
    | .ok s2 => if opened then end_context ok s2 else .ok s2

/-- Iteration of `processElement` over the input series, propagating the
first backend error (the `for element in series` loop of mod.rs lines
93-141). -/
def processElements (ok : Nat → Bool) (cs : ChartSpec XT YT) (series_id : Nat) :
    List (List (XT × YT)) → DAState XT YT → Except (DAState XT YT) (DAState XT YT)
  | [], s => .ok s
  | e :: es, s =>
    match processElement ok cs series_id e s with
    | .error s' => .error s'
    | .ok s' => processElements ok cs series_id es s'

/-- State of one chart context: the series-id counter `next_series_id`, the
number of allocated legend-annotation records (`SeriesAnno`s), and the
drawing-area state. -/
structure ChartState (XT YT : Type) where
  next_series_id : Nat
  numAnnos : Nat
  da : DAState XT YT
  deriving DecidableEq, Repr

/-- Modelled from the spec: `ChartContext::alloc_series_anno` (not under
src/) appends a fresh legend-annotation record and returns a handle to it
(here: its index). -/
def alloc_series_anno (st : ChartState XT YT) : Nat × ChartState XT YT :=
  (st.numAnnos, { st with numAnnos := st.numAnnos + 1 })

/-- Embedding of `ChartContext::draw_series_with_tooltips` (mod.rs lines
65-144): allocate a fresh series id, open a `DataSeries` context, process
every element, close the `DataSeries` context, and return a handle to a
newly allocated legend record.  Every fallible step uses Rust's `?`:
on `Except.error` the function returns at once with the state at failure. -/
def draw_series_with_tooltips (ok : Nat → Bool) (cs : ChartSpec XT YT)
    (series_color : Nat) (series_label : String)
    (series : List (List (XT × YT))) (st : ChartState XT YT) :
    Except (ChartState XT YT) (Nat × ChartState XT YT) :=
  let series_id := st.next_series_id
  let st1 : ChartState XT YT := { st with next_series_id := st.next_series_id + 1 }
  match begin_context ok (.DataSeries series_id series_color series_label) st1.da with
  | .error da => .error { st1 with da := da }
  | .ok da =>
    match processElements ok cs series_id series da with
    | .error da' => .error { st1 with da := da' }
    | .ok da' =>
      match end_context ok da' with
      | .error da'' => .error { st1 with da := da'' }
      | .ok da'' => .ok (alloc_series_anno { st1 with da := da'' })

/-- Resulting chart state of a call, whether it succeeded or failed (in Rust
the chart context is borrowed mutably, so its state persists either way). -/
def afterCall : Except (ChartState XT YT) (Nat × ChartState XT YT) → ChartState XT YT
  | .ok (_, st) => st
  | .error st => st

/-- Series identifiers carried by the `DataSeries` contexts opened by a
sequence of successive `draw_series_with_tooltips` calls on the same chart
context (each call opens its context with id `next_series_id`). -/
def runCalls (ok : Nat → Bool) (cs : ChartSpec XT YT) :
    List (Nat × String × List (List (XT × YT))) → ChartState XT YT → List Nat
  | [], _ => []
  | (c, l, srs) :: rest, st =>
    st.next_series_id ::
      runCalls ok cs rest (afterCall (draw_series_with_tooltips ok cs c l srs st))

/-!
Model of the coordinate-system side used by `set_secondary_coord` (mod.rs
lines 173-187).  Rust `Range<i32>` values (`start..end`) are represented as
pairs `(start, end) : Int × Int`.
-/

/-- Modelled from the spec: a ranged axis spec (the `Ranged` trait, not under
src/), reduced to its value-to-pixel-offset mapping `map(value, pixel_range)`
(key points and formatting are not needed for the secondary-coordinate
claims). -/
structure RangedSpec (T : Type) where
  map : T → Int × Int → Int

/-- Modelled from the spec: `Cartesian2d` (not under src/) owns one X spec
and one Y spec plus the pixel rectangle they are mapped onto. -/
structure Cartesian2d (XT YT : Type) where
  logic_x : RangedSpec XT
  logic_y : RangedSpec YT
  back_x : Int × Int
  back_y : Int × Int

variable {SXT SYT : Type}

/-- Modelled from the spec: `Cartesian2d::new` (not under src/) stores the
two axis descriptors and the given pixel rectangle; construction is
infallible and applies no further transformation. -/
def Cartesian2d.new (x_coord : RangedSpec XT) (y_coord : RangedSpec YT)
    (pixel_range : (Int × Int) × (Int × Int)) : Cartesian2d XT YT :=
  { logic_x := x_coord, logic_y := y_coord,
    back_x := pixel_range.1, back_y := pixel_range.2 }

/-- Modelled from the spec: `Cartesian2d::map_coordinate` delegates to each
axis spec independently; the two axes never interact. -/
def Cartesian2d.map_coordinate (c : Cartesian2d XT YT) (p : XT × YT) : Int × Int :=
  (c.logic_x.map p.1 c.back_x, c.logic_y.map p.2 c.back_y)

/-- Chart context slice needed by `set_secondary_coord`: the primary
coordinate system of its drawing area and the drawing area's pixel range
(`drawing_area.get_pixel_range()`, returning the X and Y pixel intervals). -/
structure ChartContextModel (XT YT : Type) where
  coord : Cartesian2d XT YT
  pixel_range : (Int × Int) × (Int × Int)

/-- Mapping a data point through the chart context's primary coordinate
system (`ChartContext::backend_coord`, mod.rs lines 160-162, which delegates
to `drawing_area.map_coordinate`). -/
def ChartContextModel.backend_coord (self : ChartContextModel XT YT) (p : XT × YT) :
    Int × Int :=
  self.coord.map_coordinate p

/-- Modelled from the spec: `DualCoordChartContext` (not under src/) composes
the primary chart context and the secondary coordinate system side by side
(two fields, no inheritance). -/
structure DualCoordChartContext (XT YT SXT SYT : Type) where
  primary : ChartContextModel XT YT
  secondary : Cartesian2d SXT SYT

/-- Modelled from the spec: `DualCoordChartContext::new` (not under src/)
wraps the given primary context and secondary coordinate system unchanged. -/
def DualCoordChartContext.new (primary : ChartContextModel XT YT)
    (secondary : Cartesian2d SXT SYT) : DualCoordChartContext XT YT SXT SYT :=
  { primary := primary, secondary := secondary }

/-- Embedding of `ChartContext::set_secondary_coord` (mod.rs lines 173-187):
take the primary drawing area's pixel range, reverse its Y interval
(`pixel_range.1 = pixel_range.1.end..pixel_range.1.start`), and build the
secondary `Cartesian2d` on that rectangle inside a dual-context wrapper. -/
def set_secondary_coord (self : ChartContextModel XT YT)
    (x_coord : RangedSpec SXT) (y_coord : RangedSpec SYT) :
    DualCoordChartContext XT YT SXT SYT :=
  let pixel_range := self.pixel_range
  let pixel_range := (pixel_range.1, (pixel_range.2.2, pixel_range.2.1))
  DualCoordChartContext.new self (Cartesian2d.new x_coord y_coord pixel_range)

/-!  Concrete instances used by witnesses. -/

/-- Concrete chart spec over integer guest coordinates: a simple affine pixel
mapping and decimal formatting, used to evaluate the model on concrete
inputs. -/
def csInt : ChartSpec Int Int :=
  { mapCoord := fun p => (p.1 + 10, p.2 + 20),
    format_ext_x := fun v => toString v,
    format_ext_y := fun v => toString v }

/-- Fresh chart state: no series drawn yet, empty context stack and trace. -/
def st0 : ChartState Int Int :=
  { next_series_id := 0, numAnnos := 0,
    da := { ctxStack := [], trace := [], opIdx := 0 } }

/-!  Trace/stack bookkeeping used by the error-path and balance claims. -/

/-- Effect of one backend operation on the context stack: `beginCtx` pushes,
`endCtx` pops, `draw` leaves the stack unchanged. -/
def stackStep (stk : List ElementContext) : Event XT YT → List ElementContext
  | .beginCtx c => c :: stk
  | .endCtx => stk.tail
  | .draw _ => stk

/-- Replaying a list of backend operations over a context stack. -/
def replay (evs : List (Event XT YT)) (stk : List ElementContext) :
    List ElementContext :=
  evs.foldl stackStep stk

/-- Relation between drawing-area states across a successful step: the trace
grew by some operations, all of which the backend accepted, the operation
counter advanced accordingly, and the context stack is the replay of exactly
those operations. -/
def StepOk (ok : Nat → Bool) (s s' : DAState XT YT) : Prop :=
  ∃ evs, s'.trace = s.trace ++ evs ∧ s'.opIdx = s.opIdx + evs.length ∧
    s'.ctxStack = replay evs s.ctxStack ∧
    ∀ j, s.opIdx ≤ j → j < s'.opIdx → ok j = true

/-- Relation between drawing-area states across a failed step: at least one
operation was issued, every issued operation except the last was accepted,
the last issued operation is the one the backend refused (so the call
returned at once, with no retry and no further operations), and the context
stack is the replay of exactly the issued operations (contexts opened before
the failure remain open). -/
def FailsAtLast (ok : Nat → Bool) (s s' : DAState XT YT) : Prop :=
  ∃ evs, evs ≠ [] ∧ s'.trace = s.trace ++ evs ∧ s'.opIdx = s.opIdx + evs.length ∧
    s'.ctxStack = replay evs s.ctxStack ∧
    (∀ j, s.opIdx ≤ j → j + 1 < s'.opIdx → ok j = true) ∧
    ok (s'.opIdx - 1) = false

/-- Number of `beginCtx` operations in a trace. -/
def countBeginCtx : List (Event XT YT) → Nat
  | [] => 0
  | .beginCtx _ :: r => countBeginCtx r + 1
  | _ :: r => countBeginCtx r

/-- Number of `endCtx` operations in a trace. -/
def countEndCtx : List (Event XT YT) → Nat
  | [] => 0
  | .endCtx :: r => countEndCtx r + 1
  | _ :: r => countEndCtx r

/-- Backend oracle whose third operation (index 2, the `draw` of a
single-point element) fails, all other operations succeeding. -/
def okFailDraw : Nat → Bool := fun n => decide (n ≠ 2)

/-- Chart state returned (inside `Except.error`) by drawing one single-point
element when the backend refuses the `draw` operation. -/
def errStFailDraw : ChartState Int Int :=
  { next_series_id := 1, numAnnos := 0,
    da := { ctxStack := [.DataPoint (10, 20) "0" "0" 0, .DataSeries 0 7 "s"],
            trace := [.beginCtx (.DataSeries 0 7 "s"),
                      .beginCtx (.DataPoint (10, 20) "0" "0" 0),
                      .draw [(0, 0)]],
            opIdx := 3 } }

/-- Final chart state of a successful single-point call, used as the C2
witness run. -/
def stOkSingle : ChartState Int Int :=
  { next_series_id := 1, numAnnos := 1,
    da := { ctxStack := [],
            trace := [.beginCtx (.DataSeries 0 7 "s"),
                      .beginCtx (.DataPoint (11, 22) "1" "2" 0),
                      .draw [(1, 2)], .endCtx, .endCtx],
            opIdx := 5 } }

/-- C5: on an empty input sequence, `draw_series_with_tooltips` opens and
immediately closes exactly one `DataSeries` context (no `DataPoint` or
`DataLine` context), allocates exactly one legend-annotation record, and
returns a handle to that record. -/
theorem draw_series_with_tooltips_empty_series (cs : ChartSpec XT YT)
    (color : Nat) (label : String) (st : ChartState XT YT) :
    draw_series_with_tooltips (fun _ => true) cs color label [] st =
      .ok (st.numAnnos,
        { next_series_id := st.next_series_id + 1,
          numAnnos := st.numAnnos + 1,
          da := { ctxStack := st.da.ctxStack,
                  trace := st.da.trace ++
                    [.beginCtx (.DataSeries st.next_series_id color label), .endCtx],
                  opIdx := st.da.opIdx + 2 } }) := by
  simp [draw_series_with_tooltips, processElements, begin_context, end_context,
    alloc_series_anno]

/-- C4: on an input of exactly one element with exactly one guest point,
exactly one `DataPoint` context is opened and closed, strictly nested inside
the `DataSeries` context, carrying the mapped backend coordinate, the two
`format_ext` labels and the series id. -/
theorem draw_series_with_tooltips_single_point (cs : ChartSpec XT YT)
    (color : Nat) (label : String) (p : XT × YT) (st : ChartState XT YT) :
    draw_series_with_tooltips (fun _ => true) cs color label [[p]] st =
      .ok (st.numAnnos,
        { next_series_id := st.next_series_id + 1,
          numAnnos := st.numAnnos + 1,
          da := { ctxStack := st.da.ctxStack,
                  trace := st.da.trace ++
                    [.beginCtx (.DataSeries st.next_series_id color label),
                     .beginCtx (.DataPoint (cs.mapCoord p) (cs.format_ext_x p.1)
                       (cs.format_ext_y p.2) st.next_series_id),
                     .draw [p], .endCtx, .endCtx],
                  opIdx := st.da.opIdx + 5 } }) := by
  simp [draw_series_with_tooltips, processElements, processElement, mappedPoints,
    begin_context, end_context, draw_op, alloc_series_anno]

/-- C6: an element yielding zero guest points opens no nested context at all
(`processElement`, the loop body of `draw_series_with_tooltips` applied to
each element, issues exactly one `draw` operation: the element is still
rendered) and leaves the context stack unchanged. -/
theorem processElement_zero_points (ok : Nat → Bool) (cs : ChartSpec XT YT)
    (series_id : Nat) (s : DAState XT YT) (h : ok s.opIdx = true) :
    processElement ok cs series_id [] s =
      .ok { ctxStack := s.ctxStack, trace := s.trace ++ [.draw []],
            opIdx := s.opIdx + 1 } := by
  simp [processElement, mappedPoints, draw_op, h]

/-- C6 witness at a concrete input. -/
theorem processElement_zero_points_witness :
    (fun _ => true : Nat → Bool) st0.da.opIdx = true ∧
    processElement (fun _ => true) csInt 0 [] st0.da =
      .ok { ctxStack := st0.da.ctxStack, trace := st0.da.trace ++ [.draw []],
            opIdx := st0.da.opIdx + 1 } :=
  ⟨rfl, processElement_zero_points (fun _ => true) csInt 0 st0.da rfl⟩

/-- C1: on an input of one multi-point element with at least two vertices,
the opened `DataLine` context carries exactly two `Discrete` interpolations
whose entries, in the order of the element's point sequence, pair each
point's mapped pixel X (resp. Y) offset with `format_ext` of its X (resp. Y)
coordinate; each interpolation has exactly as many entries as the element
has vertices. -/
theorem draw_series_with_tooltips_multi_point (cs : ChartSpec XT YT)
    (color : Nat) (label : String) (elem : List (XT × YT))
    (st : ChartState XT YT) (h : 2 ≤ elem.length) :
    draw_series_with_tooltips (fun _ => true) cs color label [elem] st =
      .ok (st.numAnnos,
        { next_series_id := st.next_series_id + 1,
          numAnnos := st.numAnnos + 1,
          da := { ctxStack := st.da.ctxStack,
                  trace := st.da.trace ++
                    [.beginCtx (.DataSeries st.next_series_id color label),
                     .beginCtx (.DataLine
                       (.Discrete (elem.map fun p =>
                         ((cs.mapCoord p).1, cs.format_ext_x p.1)))
                       (.Discrete (elem.map fun p =>
                         ((cs.mapCoord p).2, cs.format_ext_y p.2)))
                       st.next_series_id),
                     .draw elem, .endCtx, .endCtx],
                  opIdx := st.da.opIdx + 5 } }) ∧
    (elem.map fun p => ((cs.mapCoord p).1, cs.format_ext_x p.1)).length = elem.length ∧
    (elem.map fun p => ((cs.mapCoord p).2, cs.format_ext_y p.2)).length = elem.length := by
  have hlen : ¬ elem.length ≤ 1 := by omega
  refine ⟨?_, by simp, by simp⟩
  simp [draw_series_with_tooltips, processElements, processElement, mappedPoints,
    begin_context, end_context, draw_op, alloc_series_anno, hlen,
    List.map_map, Function.comp]

/-- C1 witness at a concrete two-vertex element. -/
theorem draw_series_with_tooltips_multi_point_witness :
    2 ≤ ([((1:Int),(2:Int)),(3,4)]).length ∧
    (draw_series_with_tooltips (fun _ => true) csInt 7 "s" [[((1:Int),(2:Int)),(3,4)]] st0 =
      .ok (st0.numAnnos,
        { next_series_id := st0.next_series_id + 1,
          numAnnos := st0.numAnnos + 1,
          da := { ctxStack := st0.da.ctxStack,
                  trace := st0.da.trace ++
                    [.beginCtx (.DataSeries st0.next_series_id 7 "s"),
                     .beginCtx (.DataLine
                       (.Discrete (([((1:Int),(2:Int)),(3,4)]).map fun p =>
                         ((csInt.mapCoord p).1, csInt.format_ext_x p.1)))
                       (.Discrete (([((1:Int),(2:Int)),(3,4)]).map fun p =>
                         ((csInt.mapCoord p).2, csInt.format_ext_y p.2)))
                       st0.next_series_id),
                     .draw [((1:Int),(2:Int)),(3,4)], .endCtx, .endCtx],
                  opIdx := st0.da.opIdx + 5 } }) ∧
      (([((1:Int),(2:Int)),(3,4)]).map fun p =>
        ((csInt.mapCoord p).1, csInt.format_ext_x p.1)).length =
          ([((1:Int),(2:Int)),(3,4)]).length ∧
      (([((1:Int),(2:Int)),(3,4)]).map fun p =>
        ((csInt.mapCoord p).2, csInt.format_ext_y p.2)).length =
          ([((1:Int),(2:Int)),(3,4)]).length) :=
  ⟨by decide,
    draw_series_with_tooltips_multi_point csInt 7 "s" [((1:Int),(2:Int)),(3,4)] st0
      (by decide)⟩

theorem replay_append (a b : List (Event XT YT)) (stk : List ElementContext) :
    replay (a ++ b) stk = replay b (replay a stk) := by
  simp [replay, List.foldl_append]

theorem StepOk.refl (ok : Nat → Bool) (s : DAState XT YT) : StepOk ok s s :=
  ⟨[], by simp [replay], by simp, by simp [replay], fun j h1 h2 => absurd h2 (by omega)⟩

theorem StepOk.trans {ok : Nat → Bool} {s s' s'' : DAState XT YT}
    (h1 : StepOk ok s s') (h2 : StepOk ok s' s'') : StepOk ok s s'' := by
  obtain ⟨e1, ht1, ho1, hs1, ha1⟩ := h1
  obtain ⟨e2, ht2, ho2, hs2, ha2⟩ := h2
  refine ⟨e1 ++ e2, by simp [ht2, ht1], by simp [ho2, ho1]; omega,
    by rw [replay_append, ← hs1, ← hs2], fun j hj1 hj2 => ?_⟩
  by_cases hc : j < s'.opIdx
  · exact ha1 j hj1 hc
  · exact ha2 j (by omega) hj2

theorem StepOk.comp_fail {ok : Nat → Bool} {s s' s'' : DAState XT YT}
    (h1 : StepOk ok s s') (h2 : FailsAtLast ok s' s'') : FailsAtLast ok s s'' := by
  obtain ⟨e1, ht1, ho1, hs1, ha1⟩ := h1
  obtain ⟨e2, hne2, ht2, ho2, hs2, ha2, hf2⟩ := h2
  refine ⟨e1 ++ e2, by simp [hne2], by simp [ht2, ht1], by simp [ho2, ho1]; omega,
    by rw [replay_append, ← hs1, ← hs2], fun j hj1 hj2 => ?_, hf2⟩
  by_cases hc : j < s'.opIdx
  · exact ha1 j hj1 hc
  · have : 0 < e2.length := List.length_pos.mpr hne2
    exact ha2 j (by omega) hj2

/-!  Behaviour of the three drawing-area operations. -/

theorem begin_context_ok {ok : Nat → Bool} {c : ElementContext}
    {s s' : DAState XT YT} (h : begin_context ok c s = .ok s') :
    s' = ⟨c :: s.ctxStack, s.trace ++ [.beginCtx c], s.opIdx + 1⟩ ∧
      ok s.opIdx = true := by
  unfold begin_context at h
  split at h <;> simp_all

theorem begin_context_err {ok : Nat → Bool} {c : ElementContext}
    {s s' : DAState XT YT} (h : begin_context ok c s = .error s') :
    s' = ⟨c :: s.ctxStack, s.trace ++ [.beginCtx c], s.opIdx + 1⟩ ∧
      ok s.opIdx = false := by
  unfold begin_context at h
  split at h <;> simp_all

theorem draw_op_ok {ok : Nat → Bool} {elem : List (XT × YT)}
    {s s' : DAState XT YT} (h : draw_op ok elem s = .ok s') :
    s' = ⟨s.ctxStack, s.trace ++ [.draw elem], s.opIdx + 1⟩ ∧
      ok s.opIdx = true := by
  unfold draw_op at h
  split at h <;> simp_all

theorem draw_op_err {ok : Nat → Bool} {elem : List (XT × YT)}
    {s s' : DAState XT YT} (h : draw_op ok elem s = .error s') :
    s' = ⟨s.ctxStack, s.trace ++ [.draw elem], s.opIdx + 1⟩ ∧
      ok s.opIdx = false := by
  unfold draw_op at h
  split at h <;> simp_all

theorem end_context_ok {ok : Nat → Bool} {s s' : DAState XT YT}
    (h : end_context ok s = .ok s') :
    s' = ⟨s.ctxStack.tail, s.trace ++ [.endCtx], s.opIdx + 1⟩ ∧
      ok s.opIdx = true ∧ s.ctxStack ≠ [] := by
  unfold end_context at h
  split at h
  · simp_all
  · split at h <;> simp_all

theorem end_context_err_of_cons {ok : Nat → Bool} {s s' : DAState XT YT}
    (hne : s.ctxStack ≠ []) (h : end_context ok s = .error s') :
    s' = ⟨s.ctxStack.tail, s.trace ++ [.endCtx], s.opIdx + 1⟩ ∧
      ok s.opIdx = false := by
  unfold end_context at h
  split at h
  · simp_all
  · split at h <;> simp_all

theorem begin_context_stepOk {ok : Nat → Bool} {c : ElementContext}
    {s s' : DAState XT YT} (h : begin_context ok c s = .ok s') : StepOk ok s s' := by
  obtain ⟨rfl, hok⟩ := begin_context_ok h
  exact ⟨[.beginCtx c], rfl, rfl, by simp [replay, stackStep],
    fun j h1 h2 => by have : j = s.opIdx := by simp at h2; omega
                      simp [this, hok]⟩

theorem draw_op_stepOk {ok : Nat → Bool} {elem : List (XT × YT)}
    {s s' : DAState XT YT} (h : draw_op ok elem s = .ok s') : StepOk ok s s' := by
  obtain ⟨rfl, hok⟩ := draw_op_ok h
  exact ⟨[.draw elem], rfl, rfl, by simp [replay, stackStep],
    fun j h1 h2 => by have : j = s.opIdx := by simp at h2; omega
                      simp [this, hok]⟩

theorem end_context_stepOk {ok : Nat → Bool} {s s' : DAState XT YT}
    (h : end_context ok s = .ok s') : StepOk ok s s' := by
  obtain ⟨rfl, hok, hne⟩ := end_context_ok h
  exact ⟨[.endCtx], rfl, rfl, by simp [replay, stackStep],
    fun j h1 h2 => by have : j = s.opIdx := by simp at h2; omega
                      simp [this, hok]⟩

theorem begin_context_fails {ok : Nat → Bool} {c : ElementContext}
    {s s' : DAState XT YT} (h : begin_context ok c s = .error s') :
    FailsAtLast ok s s' := by
  obtain ⟨rfl, hok⟩ := begin_context_err h
  exact ⟨[.beginCtx c], by simp, rfl, rfl, by simp [replay, stackStep],
    fun j h1 h2 => absurd h2 (by simp; omega), by simpa using hok⟩

theorem draw_op_fails {ok : Nat → Bool} {elem : List (XT × YT)}
    {s s' : DAState XT YT} (h : draw_op ok elem s = .error s') :
    FailsAtLast ok s s' := by
  obtain ⟨rfl, hok⟩ := draw_op_err h
  exact ⟨[.draw elem], by simp, rfl, rfl, by simp [replay, stackStep],
    fun j h1 h2 => absurd h2 (by simp; omega), by simpa using hok⟩

theorem end_context_fails_of_cons {ok : Nat → Bool} {s s' : DAState XT YT}
    (hne : s.ctxStack ≠ []) (h : end_context ok s = .error s') :
    FailsAtLast ok s s' := by
  obtain ⟨rfl, hok⟩ := end_context_err_of_cons hne h
  exact ⟨[.endCtx], by simp, rfl, rfl, by simp [replay, stackStep],
    fun j h1 h2 => absurd h2 (by simp; omega), by simpa using hok⟩

theorem processElement_ok_cases {ok : Nat → Bool} {cs : ChartSpec XT YT}
    {series_id : Nat} {e : List (XT × YT)} {s s' : DAState XT YT}
    (h : processElement ok cs series_id e s = .ok s') :
    StepOk ok s s' ∧ s'.ctxStack = s.ctxStack := by
  unfold processElement at h
  simp only [] at h
  split at h
  next s1 heq => cases h
  next opened s1 heq =>
    split at heq
    next hc =>
      split at heq
      next hm =>
        obtain ⟨h1, h2⟩ := by simpa using heq
        subst h1; subst h2
        split at h
        next s2 hd => cases h
        next s2 hd =>
          simp only [Bool.false_eq_true, if_false] at h
          cases h
          obtain ⟨rfl, -⟩ := draw_op_ok hd
          exact ⟨draw_op_stepOk hd, rfl⟩
      next m tail hm =>
        split at heq
        next s1x hb =>
          obtain ⟨h1, h2⟩ := by simpa using heq
          subst h1; subst h2
          split at h
          next s2 hd => cases h
          next s2 hd =>
            simp only [if_true] at h
            refine ⟨((begin_context_stepOk hb).trans (draw_op_stepOk hd)).trans
              (end_context_stepOk h), ?_⟩
            obtain ⟨rfl, -⟩ := begin_context_ok hb
            obtain ⟨rfl, -⟩ := draw_op_ok hd
            obtain ⟨rfl, -, -⟩ := end_context_ok h
            rfl
        next s1x hb => cases heq
    next hc =>
      split at heq
      next s1x hb =>
        obtain ⟨h1, h2⟩ := by simpa using heq
        subst h1; subst h2
        split at h
        next s2 hd => cases h
        next s2 hd =>
          simp only [if_true] at h
          refine ⟨((begin_context_stepOk hb).trans (draw_op_stepOk hd)).trans
            (end_context_stepOk h), ?_⟩
          obtain ⟨rfl, -⟩ := begin_context_ok hb
          obtain ⟨rfl, -⟩ := draw_op_ok hd
          obtain ⟨rfl, -, -⟩ := end_context_ok h
          rfl
      next s1x hb => cases heq

theorem processElement_fails {ok : Nat → Bool} {cs : ChartSpec XT YT}
    {series_id : Nat} {e : List (XT × YT)} {s s' : DAState XT YT}
    (h : processElement ok cs series_id e s = .error s') :
    FailsAtLast ok s s' := by
  unfold processElement at h
  simp only [] at h
  split at h
  next s1 heq =>
    cases h
    split at heq
    next hc =>
      split at heq
      next hm => cases heq
      next m tail hm =>
        split at heq
        next s1x hb => cases heq
        next s1x hb =>
          cases heq
          exact begin_context_fails hb
    next hc =>
      split at heq
      next s1x hb => cases heq
      next s1x hb =>
        cases heq
        exact begin_context_fails hb
  next opened s1 heq =>
    have hstep : StepOk ok s s1 ∧ (opened = false → s1 = s) ∧
        (opened = true → s1.ctxStack ≠ []) := by
      split at heq
      next hc =>
        split at heq
        next hm =>
          obtain ⟨h1, h2⟩ := by simpa using heq
          subst h1; subst h2
          exact ⟨StepOk.refl ok s, fun _ => rfl, fun hf => absurd hf (by simp)⟩
        next m tail hm =>
          split at heq
          next s1x hb =>
            obtain ⟨h1, h2⟩ := by simpa using heq
            subst h1; subst h2
            refine ⟨begin_context_stepOk hb, ?_, ?_⟩
            · intro hf; cases hf
            · intro hf
              obtain ⟨rfl, -⟩ := begin_context_ok hb
              simp
          next s1x hb => cases heq
      next hc =>
        split at heq
        next s1x hb =>
          obtain ⟨h1, h2⟩ := by simpa using heq
          subst h1; subst h2
          refine ⟨begin_context_stepOk hb, ?_, ?_⟩
          · intro hf; cases hf
          · intro hf
            obtain ⟨rfl, -⟩ := begin_context_ok hb
            simp
        next s1x hb => cases heq
    split at h
    next s2 hd =>
      cases h
      exact hstep.1.comp_fail (draw_op_fails hd)
    next s2 hd =>
      by_cases hop : opened = true
      · rw [if_pos hop] at h
        have hne : s2.ctxStack ≠ [] := by
          obtain ⟨rfl, -⟩ := draw_op_ok hd
          exact hstep.2.2 hop
        exact (hstep.1.trans (draw_op_stepOk hd)).comp_fail
          (end_context_fails_of_cons hne h)
      · rw [if_neg hop] at h
        cases h

theorem processElements_ok_cases {ok : Nat → Bool} {cs : ChartSpec XT YT}
    {series_id : Nat} {series : List (List (XT × YT))} {s s' : DAState XT YT}
    (h : processElements ok cs series_id series s = .ok s') :
    StepOk ok s s' ∧ s'.ctxStack = s.ctxStack := by
  induction series generalizing s with
  | nil =>
    cases h
    exact ⟨StepOk.refl _ _, rfl⟩
  | cons e es ih =>
    unfold processElements at h
    split at h
    next s1 hp => cases h
    next s1 hp =>
      obtain ⟨hstep, hstk⟩ := processElement_ok_cases hp
      obtain ⟨hstep', hstk'⟩ := ih h
      exact ⟨hstep.trans hstep', hstk'.trans hstk⟩

theorem processElements_fails {ok : Nat → Bool} {cs : ChartSpec XT YT}
    {series_id : Nat} {series : List (List (XT × YT))} {s s' : DAState XT YT}
    (h : processElements ok cs series_id series s = .error s') :
    FailsAtLast ok s s' := by
  induction series generalizing s with
  | nil => cases h
  | cons e es ih =>
    unfold processElements at h
    split at h
    next s1 hp =>
      cases h
      exact processElement_fails hp
    next s1 hp =>
      exact (processElement_ok_cases hp).1.comp_fail (ih h)

theorem draw_series_with_tooltips_ok_cases {ok : Nat → Bool} {cs : ChartSpec XT YT}
    {series_color : Nat} {series_label : String} {series : List (List (XT × YT))}
    {st : ChartState XT YT} {hdl : Nat} {st' : ChartState XT YT}
    (h : draw_series_with_tooltips ok cs series_color series_label series st =
      .ok (hdl, st')) :
    st'.da.ctxStack = st.da.ctxStack ∧ StepOk ok st.da st'.da ∧
    st'.next_series_id = st.next_series_id + 1 ∧
    st'.numAnnos = st.numAnnos + 1 ∧ hdl = st.numAnnos ∧
    ∃ rest, st'.da.trace = st.da.trace ++
      .beginCtx (.DataSeries st.next_series_id series_color series_label) :: rest := by
  unfold draw_series_with_tooltips at h
  simp only [] at h
  split at h
  next da hb => cases h
  next da hb =>
    split at h
    next da' hp => cases h
    next da' hp =>
      split at h
      next da'' he => cases h
      next da'' he =>
        obtain ⟨h1, h2⟩ := by simpa [alloc_series_anno] using h
        subst h1
        subst h2
        obtain ⟨hstep, hstk⟩ := processElements_ok_cases hp
        obtain ⟨rfl, hok⟩ := begin_context_ok hb
        obtain ⟨rfl, -, -⟩ := end_context_ok he
        obtain ⟨evs, htr, hop, hrep, hacc⟩ := hstep
        refine ⟨by simp [hstk], ?_, rfl, rfl, rfl, evs ++ [.endCtx], by simp [htr]⟩
        exact ((begin_context_stepOk hb).trans
          ⟨evs, htr, hop, hrep, hacc⟩).trans (end_context_stepOk he)

theorem draw_series_with_tooltips_err_cases {ok : Nat → Bool} {cs : ChartSpec XT YT}
    {series_color : Nat} {series_label : String} {series : List (List (XT × YT))}
    {st st' : ChartState XT YT}
    (h : draw_series_with_tooltips ok cs series_color series_label series st =
      .error st') :
    FailsAtLast ok st.da st'.da ∧
    st'.next_series_id = st.next_series_id + 1 ∧ st'.numAnnos = st.numAnnos ∧
    ∃ rest, st'.da.trace = st.da.trace ++
      .beginCtx (.DataSeries st.next_series_id series_color series_label) :: rest := by
  unfold draw_series_with_tooltips at h
  simp only [] at h
  split at h
  next da hb =>
    cases h
    obtain ⟨heq, -⟩ := begin_context_err hb
    exact ⟨begin_context_fails hb, rfl, rfl, [], by simp [heq]⟩
  next da hb =>
    obtain ⟨rfl, hok⟩ := begin_context_ok hb
    split at h
    next da' hp =>
      cases h
      obtain ⟨evs, -, htr, -, -, -, -⟩ := processElements_fails hp
      exact ⟨(begin_context_stepOk hb).comp_fail (processElements_fails hp), rfl, rfl,
        evs, by simp [htr]⟩
    next da' hp =>
      obtain ⟨hstep, hstk⟩ := processElements_ok_cases hp
      split at h
      next da'' he =>
        cases h
        have hne : da'.ctxStack ≠ [] := by simp [hstk]
        obtain ⟨heq, -⟩ := end_context_err_of_cons hne he
        obtain ⟨evs, htr, hop, hrep, hacc⟩ := hstep
        refine ⟨((begin_context_stepOk hb).trans
          ⟨evs, htr, hop, hrep, hacc⟩).comp_fail
          (end_context_fails_of_cons hne he), rfl, rfl, evs ++ [.endCtx], ?_⟩
        simp [heq, htr]
      next da'' he => cases h

/-- C2 (amended): a call of `draw_series_with_tooltips` that returns without a
backend error leaves the context stack exactly as it found it — every
`begin_context` it issued was followed by a matching `end_context` before the
call returned.  (As stated over all executions, including failing ones, the
claim is false: see the counterexample, where a failed `draw` leaves the
`DataSeries` and `DataPoint` contexts open.) -/
theorem draw_series_with_tooltips_balanced_on_ok {ok : Nat → Bool}
    {cs : ChartSpec XT YT} {series_color : Nat} {series_label : String}
    {series : List (List (XT × YT))} {st : ChartState XT YT} {hdl : Nat}
    {st' : ChartState XT YT}
    (h : draw_series_with_tooltips ok cs series_color series_label series st =
      .ok (hdl, st')) :
    st'.da.ctxStack = st.da.ctxStack :=
  (draw_series_with_tooltips_ok_cases h).1

/-- C3: a call of `draw_series_with_tooltips` that returns a backend error
stopped at the first refused operation: every issued operation before the
last succeeded, the last issued operation is the one that failed (no retry,
no further `end_context`), and the final context stack is exactly the replay
of the issued operations over the initial stack, so contexts opened before
the failure remain open. -/
theorem draw_series_with_tooltips_error_aborts {ok : Nat → Bool}
    {cs : ChartSpec XT YT} {series_color : Nat} {series_label : String}
    {series : List (List (XT × YT))} {st st' : ChartState XT YT}
    (h : draw_series_with_tooltips ok cs series_color series_label series st =
      .error st') :
    FailsAtLast ok st.da st'.da :=
  (draw_series_with_tooltips_err_cases h).1

/-- C2 counterexample: with a backend that fails the `draw` of a single-point
element, the call returns an error after issuing two `begin_context`
operations and no `end_context`, leaving the `DataPoint` and `DataSeries`
contexts open on the stack — so it is not true that every `begin_context`
issued by a call is matched by an `end_context` before the call returns. -/
theorem draw_series_with_tooltips_leaves_open_contexts_on_error :
    draw_series_with_tooltips okFailDraw csInt 7 "s" [[((0:Int), (0:Int))]] st0 =
      .error errStFailDraw ∧
    st0.da.ctxStack = [] ∧
    errStFailDraw.da.ctxStack =
      [.DataPoint (10, 20) "0" "0" 0, .DataSeries 0 7 "s"] ∧
    countBeginCtx errStFailDraw.da.trace = 2 ∧
    countEndCtx errStFailDraw.da.trace = 0 := by
  exact ⟨rfl, rfl, rfl, rfl, rfl⟩

/-- C2 witness at a concrete successful run. -/
theorem draw_series_with_tooltips_balanced_on_ok_witness :
    draw_series_with_tooltips (fun _ => true) csInt 7 "s" [[((1:Int), (2:Int))]] st0 =
      .ok (0, stOkSingle) ∧
    stOkSingle.da.ctxStack = st0.da.ctxStack :=
  ⟨rfl, @draw_series_with_tooltips_balanced_on_ok Int Int (fun _ => true) csInt 7 "s"
    [[((1:Int), (2:Int))]] st0 0 stOkSingle rfl⟩

/-- C3 witness at a concrete failing run. -/
theorem draw_series_with_tooltips_error_aborts_witness :
    draw_series_with_tooltips okFailDraw csInt 7 "s" [[((0:Int), (0:Int))]] st0 =
      .error errStFailDraw ∧
    FailsAtLast okFailDraw st0.da errStFailDraw.da :=
  ⟨rfl, @draw_series_with_tooltips_error_aborts Int Int okFailDraw csInt 7 "s"
    [[((0:Int), (0:Int))]] st0 errStFailDraw rfl⟩

/-- C9: every call of `draw_series_with_tooltips` — successful or not —
increments the chart context's series-id counter exactly once, and the first
backend operation it issues is the `DataSeries` `begin_context` carrying the
pre-increment id, so the id is consumed before any backend interaction and a
failing call still consumes it. -/
theorem draw_series_with_tooltips_consumes_series_id (ok : Nat → Bool)
    (cs : ChartSpec XT YT) (series_color : Nat) (series_label : String)
    (series : List (List (XT × YT))) (st : ChartState XT YT) :
    (afterCall (draw_series_with_tooltips ok cs series_color series_label
        series st)).next_series_id = st.next_series_id + 1 ∧
    ∃ rest, (afterCall (draw_series_with_tooltips ok cs series_color series_label
        series st)).da.trace = st.da.trace ++
      .beginCtx (.DataSeries st.next_series_id series_color series_label) :: rest := by
  cases hr : draw_series_with_tooltips ok cs series_color series_label series st with
  | error st' =>
    obtain ⟨-, hn, -, rest, htr⟩ := draw_series_with_tooltips_err_cases hr
    exact ⟨by simp [afterCall, hn], rest, by simp [afterCall, htr]⟩
  | ok p =>
    obtain ⟨hdl, st'⟩ := p
    obtain ⟨-, -, hn, -, -, rest, htr⟩ := draw_series_with_tooltips_ok_cases hr
    exact ⟨by simp [afterCall, hn], rest, by simp [afterCall, htr]⟩

theorem afterCall_next_series_id (ok : Nat → Bool) (cs : ChartSpec XT YT)
    (c : Nat) (l : String) (srs : List (List (XT × YT))) (st : ChartState XT YT) :
    (afterCall (draw_series_with_tooltips ok cs c l srs st)).next_series_id =
      st.next_series_id + 1 := by
  cases hr : draw_series_with_tooltips ok cs c l srs st with
  | error st' =>
    simpa [afterCall] using (draw_series_with_tooltips_err_cases hr).2.1
  | ok p =>
    obtain ⟨hdl, st'⟩ := p
    simpa [afterCall] using (draw_series_with_tooltips_ok_cases hr).2.2.1

/-- C7: the series identifiers carried by the `DataSeries` contexts opened by
successive `draw_series_with_tooltips` calls on the same chart context are
the consecutive naturals starting at the context's counter; in particular
they are strictly increasing and pairwise distinct (never reused). -/
theorem runCalls_strictly_increasing (ok : Nat → Bool) (cs : ChartSpec XT YT)
    (args : List (Nat × String × List (List (XT × YT)))) (st : ChartState XT YT) :
    runCalls ok cs args st = List.range' st.next_series_id args.length ∧
    (runCalls ok cs args st).Pairwise (· < ·) ∧
    (runCalls ok cs args st).Pairwise (· ≠ ·) := by
  have hmain : ∀ (args : List (Nat × String × List (List (XT × YT))))
      (st : ChartState XT YT),
      runCalls ok cs args st = List.range' st.next_series_id args.length := by
    intro args
    induction args with
    | nil => intro st; rfl
    | cons a rest ih =>
      intro st
      obtain ⟨c, l, srs⟩ := a
      simp only [runCalls, List.length_cons, List.range'_succ]
      rw [ih, afterCall_next_series_id]
  have hlt : (runCalls ok cs args st).Pairwise (· < ·) := by
    rw [hmain args st]
    exact List.pairwise_lt_range' _ _
  exact ⟨hmain args st, hlt, hlt.imp Nat.ne_of_lt⟩

/-- C8: attaching a secondary coordinate system with `set_secondary_coord`
leaves the primary chart context — in particular its coordinate mapping of
any data point to backend pixels — completely unchanged, whatever the
secondary axis descriptors are. -/
theorem set_secondary_coord_preserves_primary (self : ChartContextModel XT YT)
    (x_coord : RangedSpec SXT) (y_coord : RangedSpec SYT) (p : XT × YT) :
    (set_secondary_coord self x_coord y_coord).primary = self ∧
    (set_secondary_coord self x_coord y_coord).primary.backend_coord p =
      self.backend_coord p :=
  ⟨rfl, rfl⟩

/-- C10: `set_secondary_coord` builds the secondary `Cartesian2d` on the
primary drawing area's pixel rectangle with the X pixel interval unchanged
and the Y pixel interval reversed (`end..start`), the reversal being applied
once at construction. -/
theorem set_secondary_coord_secondary_rect (self : ChartContextModel XT YT)
    (x_coord : RangedSpec SXT) (y_coord : RangedSpec SYT) :
    (set_secondary_coord self x_coord y_coord).secondary =
      Cartesian2d.new x_coord y_coord
        (self.pixel_range.1, (self.pixel_range.2.2, self.pixel_range.2.1)) ∧
    (set_secondary_coord self x_coord y_coord).secondary.back_x =
      self.pixel_range.1 ∧
    (set_secondary_coord self x_coord y_coord).secondary.back_y =
      (self.pixel_range.2.2, self.pixel_range.2.1) :=
  ⟨rfl, rfl, rfl⟩
